import Mathlib

/-!
Verification development for the DocChat RAG repository.

The repository snapshot contains the React frontend (ChatBox, DocumentUploader,
DocumentList, TopicBrowser, legacy Chat/DocumentUpload variants), the README and
deployment scripts.  The FastAPI backend (chunker, embedder, vector index,
retriever, answer synthesizer, topic catalog) is not part of the snapshot; where
a claim is decided by that missing backend, the corresponding definitions are
modelled from the specification and are marked as such in their doc comments.

Frontend definitions are shallow embeddings of the TypeScript components.
-/

/-! ### DocumentUploader.tsx: file selection and upload -/

/-- A selected file as seen by `handleFileSelect`: name, MIME type, byte size. -/
structure FileInfo where
  name : List Char
  mime : String
  size : Nat
deriving DecidableEq

/-- `allowedTypes` from `handleFileSelect` (DocumentUploader.tsx). -/
def allowedTypes : List String := ["application/pdf", "text/plain"]

/-- `allowedExtensions` from `handleFileSelect` (DocumentUploader.tsx). -/
def allowedExtensions : List (List Char) := [".pdf".data, ".txt".data]

/-- JS `String.prototype.lastIndexOf` for a single character: the largest
index holding `c`, or `-1` when `c` is absent. -/
def lastIndexOfChar (s : List Char) (c : Char) : Int :=
  (List.range s.length).foldl
    (fun acc i => if s.get? i = some c then (i : Int) else acc) (-1)

/-- JS `String.prototype.substring` with one argument: a negative start is
clamped to `0`. -/
def jsSubstring (s : List Char) (start : Int) : List Char :=
  s.drop start.toNat

/-- `file.name.toLowerCase().substring(file.name.lastIndexOf('.'))` from
`handleFileSelect`. -/
def fileExtOf (name : List Char) : List Char :=
  jsSubstring (name.map Char.toLower) (lastIndexOfChar name '.')

/-- Outcome of the synchronous validation in `handleFileSelect`: either the
upload request is issued or an error toast is shown and no request happens. -/
inductive SelectOutcome where
  | upload
  | errorToast (msg : String)
deriving DecidableEq

/-- `maxSize` from `handleFileSelect`: `10 * 1024 * 1024`. -/
def maxUploadSize : Nat := 10 * 1024 * 1024

/-- The validation logic of `handleFileSelect` (DocumentUploader.tsx lines
34-58): reject when neither the MIME type nor the lowercased extension is
allowed, then reject files over `maxSize`, otherwise call `uploadFile`. -/
def handleFileSelect (f : FileInfo) : SelectOutcome :=
  if ¬ (allowedTypes.contains f.mime = true) ∧
      ¬ (allowedExtensions.contains (fileExtOf f.name) = true) then
    SelectOutcome.errorToast ("Please select a PDF or TXT file")
  else if f.size > maxUploadSize then
    SelectOutcome.errorToast ("File size must be less than 10MB")
  else
    SelectOutcome.upload

/-! ### DocumentUploader.tsx: fields of the upload response

`uploadFile` reads `response.data.document_id`, `response.data.filename` and
`response.data.chunks_stored` from a successful `/upload-doc` response
(DocumentUploader.tsx lines 77-85); the legacy uploader also reads
`response.data.chunks_stored` for its success message. -/

/-- The upload response record as consumed by `uploadFile`. -/
structure UploadResponse where
  document_id : String
  filename : String
  chunks_stored : Nat
deriving DecidableEq

/-- Names of the response fields the frontend reads on a successful upload. -/
def uploadResponseFields : List String := ["document_id", "filename", "chunks_stored"]

/-- Names of the fields the ingest contract in the specification promises. -/
def claimedIngestFields : List String := ["document_id", "chunks_indexed", "chunks_failed"]

/-- The `UploadedDoc` entry kept in uploader state. -/
structure UploadedDoc where
  id : String
  filename : String
  chunks : Nat
deriving DecidableEq

/-- Success path of `uploadFile`: the `UploadedDoc` appended to state is built
from `document_id`, `filename` and `chunks_stored`. -/
def uploadedDocOf (r : UploadResponse) : UploadedDoc :=
  { id := r.document_id, filename := r.filename, chunks := r.chunks_stored }

/-! ### ChatBox.tsx: score rendering -/

/-- JS `x.toFixed(1)` read back as the rational it denotes: `x` rounded to one
decimal digit. -/
def toFixed1 (x : ℚ) : ℚ := ((round (10 * x) : ℤ) : ℚ) / 10

/-- The number rendered as "X% match" by the main ChatBox
(`source.score.toFixed(1)`, ChatBox.tsx lines 263-266). -/
def renderedMatchMain (score : ℚ) : ℚ := toFixed1 score

/-- The number rendered as "X% match" by the legacy ChatBox
(`(source.distance * 100).toFixed(1)`, ChatBox.tsx lines 481-485). -/
def renderedMatchLegacy (distance : ℚ) : ℚ := toFixed1 (distance * 100)

/-! ### ChatBox.tsx: submitting a question -/

/-- JS `String.prototype.trim` on a character list: leading and trailing
whitespace removed. -/
def trimChars (s : List Char) : List Char :=
  ((s.dropWhile Char.isWhitespace).reverse.dropWhile Char.isWhitespace).reverse

/-- Message author in the main ChatBox. -/
inductive ChatRole where
  | user
  | ai
deriving DecidableEq

/-- A message of the main ChatBox message list. -/
structure ChatMessage where
  role : ChatRole
  content : List Char
deriving DecidableEq

/-- State of the main ChatBox read by `handleSubmit`. -/
structure ChatState where
  input : List Char
  messages : List ChatMessage
  loading : Bool
deriving DecidableEq

/-- Synchronous part of `handleSubmit` in the main ChatBox (ChatBox.tsx lines
153-188) up to issuing the HTTP request: bail out when the trimmed input is
empty or a request is in flight; otherwise clear the input, append the user
message, set loading and issue one request.  The second component counts the
requests issued. -/
def handleSubmitMain (st : ChatState) : ChatState × Nat :=
  if trimChars st.input = [] ∨ st.loading = true then (st, 0)
  else
    ({ input := [],
       messages := st.messages ++ [{ role := ChatRole.user, content := trimChars st.input }],
       loading := true }, 1)

/-- A question/answer pair of the legacy ChatBox message list. -/
structure QAMessage where
  question : List Char
  answer : List Char
deriving DecidableEq

/-- State of the legacy ChatBox read by its `handleSubmit`. -/
structure LegacyChatState where
  input : List Char
  messages : List QAMessage
  loading : Bool
deriving DecidableEq

/-- Synchronous part of `handleSubmit` in the legacy ChatBox (ChatBox.tsx lines
16-46) up to issuing the HTTP request: the only guard is the trimmed input
being empty - `loading` is not consulted - and no message is appended before
the request (the question/answer pair is appended when the response arrives). -/
def handleSubmitLegacy (st : LegacyChatState) : LegacyChatState × Nat :=
  if trimChars st.input = [] then (st, 0)
  else ({ input := [], messages := st.messages, loading := true }, 1)

/-! ### DocumentList.tsx: deleting a document -/

/-- A document row of DocumentList.tsx. -/
structure DocRecord where
  id : String
  filename : String
deriving DecidableEq

/-- `deleteDocument` in DocumentList.tsx (lines 28-35): after a successful
DELETE the local list keeps exactly the rows with a different id. -/
def deleteDocumentLocal (docs : List DocRecord) (d : String) : List DocRecord :=
  docs.filter (fun doc => decide (doc.id ≠ d))

/-! ### Topic-marker pattern (spec §4.1)

The backend chunker and retriever are not in the repository snapshot; the
pattern `Topic <major>-<minor>` and everything below that consumes it are
modelled from the specification. -/

/-- Modelled from the spec: the run of decimal digits at the head of a
character list, together with the remainder (used by the §4.1 topic-marker
pattern; the backend is not in the repository snapshot). -/
def takeDigits : List Char → List Char × List Char
  | [] => ([], [])
  | c :: cs =>
    if c.isDigit then
      let p := takeDigits cs
      (c :: p.1, p.2)
    else ([], c :: cs)

/-- Decimal digits to a natural number. -/
def digitsToNat (ds : List Char) : Nat :=
  ds.foldl (fun a c => 10 * a + (c.toNat - 48)) 0

/-- Modelled from the spec: case-insensitive match of a lowercase literal
pattern against the head of a character list, returning the remainder. -/
def stripCI : List Char → List Char → Option (List Char)
  | [], s => some s
  | _ :: _, [] => none
  | p :: ps, c :: cs => if c.toLower = p then stripCI ps cs else none

/-- Modelled from the spec: the §4.1 topic-marker pattern
`Topic <major>-<minor>[: <title>]`, case-insensitive, parsed at the head of a
character list; yields the major/minor numbers on success. -/
def parseMarker (s : List Char) : Option (Nat × Nat) :=
  match stripCI ("topic ").data s with
  | none => none
  | some s1 =>
    match takeDigits s1 with
    | ([], _) => none
    | (d1, s2) =>
      match s2 with
      | '-' :: s3 =>
        match takeDigits s3 with
        | ([], _) => none
        | (d2, _) => some (digitsToNat d1, digitsToNat d2)
      | _ => none

/-- Modelled from the spec: canonical lowercase topic label `topic <a>-<b>`
used for case-insensitive label comparison. -/
def markerLabel (mm : Nat × Nat) : List Char :=
  ("topic ").data ++ (toString mm.1).data ++ '-' :: (toString mm.2).data

/-- Modelled from the spec: the first topic marker occurring in a question
text, scanning left to right (§4.4: the question matches the topic-marker
pattern; §8: a question containing an exact topic marker). -/
def findMarker : List Char → Option (Nat × Nat)
  | [] => none
  | c :: cs =>
    match parseMarker (c :: cs) with
    | some mm => some mm
    | none => findMarker cs

/-! ### Vector index entries and the Retriever (spec §3, §4.3, §4.4) -/

/-- Modelled from the spec: an Index Entry of the Vector Index - chunk id
(document id plus chunk index), vector, chunk text and metadata; the backend
store is not in the repository snapshot. -/
structure IndexEntry where
  doc_id : Nat
  filename : List Char
  chunk_index : Nat
  topic : Option (List Char)
  page : Option Nat
  line : Option Nat
  doc_url : Option (List Char)
  text : List Char
  vector : List ℚ
deriving DecidableEq

/-- Modelled from the spec: inner-product similarity between two vectors
(§4.3 allows cosine or inner-product, whichever the space is calibrated for). -/
def dot : List ℚ → List ℚ → ℚ
  | [], _ => 0
  | _, [] => 0
  | x :: xs, y :: ys => x * y + dot xs ys

/-- Modelled from the spec: the maximal similarity score assigned to
exact-lookup matches (§4.4). -/
def maxScore : ℚ := 1

/-- A retrieval result: a chunk's index entry with its similarity score. -/
structure RetrievalResult where
  entry : IndexEntry
  score : ℚ
deriving DecidableEq

/-- Modelled from the spec: exact-lookup ranking, by document then chunk
index (§4.4). -/
def docChunkLE (a b : IndexEntry) : Prop :=
  a.doc_id < b.doc_id ∨ (a.doc_id = b.doc_id ∧ a.chunk_index ≤ b.chunk_index)

instance : DecidableRel docChunkLE := fun a b => by
  unfold docChunkLE; infer_instance

instance : IsTotal IndexEntry docChunkLE :=
  ⟨by intro a b; unfold docChunkLE; omega⟩

instance : IsTrans IndexEntry docChunkLE :=
  ⟨by intro a b c hab hbc; unfold docChunkLE at *; omega⟩

/-- Modelled from the spec: whether an entry's topic label matches the marker
case-insensitively (§4.4). -/
def topicMatches (mm : Nat × Nat) (e : IndexEntry) : Bool :=
  match e.topic with
  | none => false
  | some t => decide (t.map Char.toLower = markerLabel mm)

/-- Modelled from the spec: the EXACT_LOOKUP state of the Retriever - scan the
index entries whose topic label matches case-insensitively, rank by document
then chunk index, assign every match the maximal score, no embedding call. -/
def exactLookup (index : List IndexEntry) (mm : Nat × Nat) : List RetrievalResult :=
  (List.insertionSort docChunkLE (index.filter (topicMatches mm))).map
    (fun e => ⟨e, maxScore⟩)

/-- Modelled from the spec: semantic ranking - higher similarity first, ties
broken by earliest chunk index (§4.3). -/
def simOrder (a b : IndexEntry × ℚ) : Prop :=
  b.2 < a.2 ∨ (a.2 = b.2 ∧ a.1.chunk_index ≤ b.1.chunk_index)

instance : DecidableRel simOrder := fun a b => by
  unfold simOrder; infer_instance

instance : IsTotal (IndexEntry × ℚ) simOrder := ⟨by
  intro a b
  unfold simOrder
  rcases lt_trichotomy a.2 b.2 with h | h | h
  · exact Or.inr (Or.inl h)
  · rcases Nat.le_total a.1.chunk_index b.1.chunk_index with hi | hi
    · exact Or.inl (Or.inr ⟨h, hi⟩)
    · exact Or.inr (Or.inr ⟨h.symm, hi⟩)
  · exact Or.inl (Or.inl h)⟩

instance : IsTrans (IndexEntry × ℚ) simOrder := ⟨by
  intro a b c hab hbc
  unfold simOrder at *
  rcases hab with h1 | h1 <;> rcases hbc with h2 | h2
  · exact Or.inl (h2.trans h1)
  · exact Or.inl (lt_of_le_of_lt (le_of_eq h2.1.symm) h1)
  · exact Or.inl (lt_of_lt_of_le h2 (le_of_eq h1.1.symm))
  · exact Or.inr ⟨h1.1.trans h2.1, h1.2.trans h2.2⟩⟩

/-- Modelled from the spec: the SEMANTIC_SEARCH state of the Retriever -
nearest-neighbour query ranked by similarity, truncated to top-k, then results
below the similarity floor are discarded (§4.4). -/
def semanticSearch (qv : List ℚ) (index : List IndexEntry) (floor : ℚ) (k : Nat) :
    List RetrievalResult :=
  (((List.insertionSort simOrder (index.map (fun e => (e, dot qv e.vector)))).take k).filter
      (fun p => decide (floor ≤ p.2))).map (fun p => ⟨p.1, p.2⟩)

/-- The two Retriever states of the §4.4 state machine. -/
inductive RetrieverBranch where
  | exactLookupState
  | semanticSearchState
deriving DecidableEq

/-- Modelled from the spec: the Retriever state machine - EXACT_LOOKUP when
the question matches the topic-marker pattern, SEMANTIC_SEARCH (embedding the
question) otherwise. -/
def retrieve (embed : List Char → List ℚ) (index : List IndexEntry) (floor : ℚ)
    (k : Nat) (q : List Char) : RetrieverBranch × List RetrievalResult :=
  match findMarker q with
  | some mm => (RetrieverBranch.exactLookupState, exactLookup index mm)
  | none => (RetrieverBranch.semanticSearchState, semanticSearch (embed q) index floor k)

/-! ### Answer synthesis and the ask pipeline (spec §4.5, §6) -/

/-- A source record attached to an answer, as promised by the §6 Ask contract:
filename, chunk id, score 0-100, preview, optional page, line, topic and
document URL. -/
structure Source where
  filename : List Char
  chunk_id : Nat
  score : ℚ
  preview : List Char
  page : Option Nat
  line : Option Nat
  topic : Option (List Char)
  doc_url : Option (List Char)
deriving DecidableEq

/-- Fixed preview truncation length (the frontend truncates previews at 150
characters). -/
def previewLength : Nat := 150

/-- Clamp a percentage into the contractual 0-100 range. -/
def clampScore (x : ℚ) : ℚ := max 0 (min 100 x)

/-- Modelled from the spec: the source record built for one retrieval result -
similarity expressed as a percentage in the 0-100 range, truncated preview,
metadata carried over from the index entry. -/
def sourceOfResult (r : RetrievalResult) : Source :=
  { filename := r.entry.filename, chunk_id := r.entry.chunk_index,
    score := clampScore (100 * r.score), preview := r.entry.text.take previewLength,
    page := r.entry.page, line := r.entry.line, topic := r.entry.topic,
    doc_url := r.entry.doc_url }

/-- Modelled from the spec: outcome of `ask` - a grounded answer with sources,
the explicit no-relevant-content state (not an error), or the distinct
generation-failure state (§4.5, §7). -/
inductive AskOutcome where
  | answered (answer : String) (sources : List Source)
  | noRelevantContent
  | generationFailed
deriving DecidableEq

/-- The sources list delivered with each ask outcome; the no-relevant-content
answer carries an empty sources list. -/
def askSources : AskOutcome → List Source
  | AskOutcome.answered _ s => s
  | AskOutcome.noRelevantContent => []
  | AskOutcome.generationFailed => []

/-- Modelled from the spec: the single grounded prompt - states the question,
enumerates the retrieved chunk texts tagged with their source filename, and
instructs the model to answer only from the supplied context (§4.5). -/
def buildPrompt (q : List Char) (rs : List RetrievalResult) : List Char :=
  ("Answer only from the context below and say explicitly if it is insufficient. Question: ").data
    ++ q ++ (rs.map (fun r => (" Source ").data ++ r.entry.filename ++ ' ' :: r.entry.text)).flatten

/-- Modelled from the spec: the ask pipeline - retrieve, produce the explicit
no-relevant-content answer when the retriever returns an empty set, otherwise
call the language model once and return its text with the source list; a
failed model call surfaces as the distinct generation-failed outcome. -/
def askModel (embed : List Char → List ℚ) (llm : List Char → Option String)
    (index : List IndexEntry) (floor : ℚ) (k : Nat) (q : List Char) : AskOutcome :=
  let rs := (retrieve embed index floor k q).2
  if rs.isEmpty then AskOutcome.noRelevantContent
  else
    match llm (buildPrompt q rs) with
    | none => AskOutcome.generationFailed
    | some a => AskOutcome.answered a (rs.map sourceOfResult)

/-! ### Topic catalog (spec §4.6) and index deletion (spec §4.3) -/

/-- A topic catalog item as listed by `list_topics` and consumed by
TopicBrowser.tsx (`TopicItem`). -/
structure TopicItem where
  filename : List Char
  topic : Option (List Char)
  page : Option Nat
  line : Option Nat
  preview : List Char
deriving DecidableEq

/-- The `list_topics` response shape consumed by TopicBrowser.tsx
(`ListTopicsResponse`). -/
structure ListTopicsResponse where
  topics : List TopicItem
  total : Nat
  page : Nat
  limit : Nat
  has_more : Bool
deriving DecidableEq

/-- Modelled from the spec: the catalog item shown for one index entry
(filename, topic label or null, page, line, truncated preview). -/
def itemOfEntry (e : IndexEntry) : TopicItem :=
  { filename := e.filename, topic := e.topic, page := e.page, line := e.line,
    preview := e.text.take previewLength }

/-- Modelled from the spec: `list_topics(page, limit)` - a stable page of the
catalog in insertion order, with total count and `has_more` computed from
`offset + limit < total` (§4.6). -/
def listTopics (entries : List TopicItem) (page limit : Nat) : ListTopicsResponse :=
  { topics := (entries.drop ((page - 1) * limit)).take limit,
    total := entries.length, page := page, limit := limit,
    has_more := decide ((page - 1) * limit + limit < entries.length) }

/-- Number of pages the TopicBrowser visits: page 1 is always fetched, then
further pages while `has_more` holds. -/
def numPages (total limit : Nat) : Nat :=
  if total = 0 then 1 else (total + limit - 1) / limit

/-- The concatenation of all pages the TopicBrowser fetches. -/
def fetchAllPages (entries : List TopicItem) (limit : Nat) : List TopicItem :=
  (List.range (numPages entries.length limit)).flatMap
    (fun j => (listTopics entries (j + 1) limit).topics)

/-- Modelled from the spec: `delete(document_id)` removes every entry of that
document from the Vector Index (§4.3). -/
def deleteDocumentIdx (st : List IndexEntry) (d : Nat) : List IndexEntry :=
  st.filter (fun e => decide (e.doc_id ≠ d))

/-- Modelled from the spec: `list(offset, limit)` - the catalog read of the
Vector Index in stable insertion order (§4.3). -/
def listEntries (st : List IndexEntry) (page limit : Nat) : List IndexEntry :=
  (st.drop ((page - 1) * limit)).take limit

/-! ### Chunker (spec §4.1) -/

/-- Chunker configuration: window size and overlap for fallback splitting. -/
structure ChunkCfg where
  size : Nat
  overlap : Nat
deriving DecidableEq

/-- A chunk: its text and the parsed topic marker, when any. -/
structure Chunk where
  text : List Char
  topic : Option (Nat × Nat)
deriving DecidableEq

/-- Modelled from the spec: whether position `p` is a line start of `text`. -/
def lineStart (text : List Char) (p : Nat) : Bool :=
  decide (p = 0) || decide (text.get? (p - 1) = some '\n')

/-- Modelled from the spec: the character offsets of §4.1 topic markers, i.e.
the line starts where the topic-marker pattern parses. -/
def markerPositions (text : List Char) : List Nat :=
  (List.range text.length).filter
    (fun p => lineStart text p && (parseMarker (text.drop p)).isSome)

/-- Modelled from the spec: the spans from one marker (inclusive) to the next
marker (exclusive), or to end of text (§4.1). -/
def markerSpans (text : List Char) : List Nat → List (List Char)
  | [] => []
  | [p] => [text.drop p]
  | p :: q :: rest => (text.drop p).take (q - p) :: markerSpans text (q :: rest)

/-- Modelled from the spec: fixed-size windows with overlap for fallback
splitting - consecutive windows start `size - overlap` characters apart. -/
def fallbackWindows (cfg : ChunkCfg) (text : List Char) : List (List Char) :=
  (List.range ((text.length + (cfg.size - cfg.overlap) - 1) / (cfg.size - cfg.overlap))).map
    (fun j => (text.drop (j * (cfg.size - cfg.overlap))).take cfg.size)

/-- Modelled from the spec: fallback chunks drop whitespace-only spans and
carry no topic label (§4.1). -/
def fallbackChunks (cfg : ChunkCfg) (text : List Char) : List Chunk :=
  (fallbackWindows cfg text).filterMap
    (fun w => if w.all Char.isWhitespace then none else some ⟨w, none⟩)

/-- Modelled from the spec: the Chunker - marker-delimited spans tagged with
their parsed topic label when markers are found, fixed-size overlapping
windows otherwise (§4.1); the backend is not in the repository snapshot. -/
def chunkText (cfg : ChunkCfg) (text : List Char) : List Chunk :=
  match markerPositions text with
  | [] => fallbackChunks cfg text
  | ps => (markerSpans text ps).map (fun s => ⟨s, parseMarker s⟩)

/-! ## Claims -/

/-- Helper: `List.contains` coincides with membership for types with lawful
boolean equality. -/
theorem contains_eq_mem {α : Type} [BEq α] [LawfulBEq α] (l : List α) (a : α) :
    l.contains a = true ↔ a ∈ l := by
  simp [List.contains_eq_any_beq, beq_iff_eq, eq_comm]

/-- C10: the uploader issues the upload request if and only if (the file's MIME
type is application/pdf or text/plain, or its lowercased name from the last dot
onward is .pdf or .txt) and its size is at most 10485760 bytes; a file failing
either condition produces an error toast and no request. -/
theorem C10_upload_validation (f : FileInfo) :
    (handleFileSelect f = SelectOutcome.upload ↔
      ((f.mime ∈ allowedTypes ∨ fileExtOf f.name ∈ allowedExtensions) ∧
        f.size ≤ 10485760)) ∧
    (¬ ((f.mime ∈ allowedTypes ∨ fileExtOf f.name ∈ allowedExtensions) ∧
        f.size ≤ 10485760) →
      ∃ m, handleFileSelect f = SelectOutcome.errorToast m) := by
  have hmime := contains_eq_mem allowedTypes f.mime
  have hext := contains_eq_mem allowedExtensions (fileExtOf f.name)
  have hmax : maxUploadSize = 10485760 := by norm_num [maxUploadSize]
  constructor
  · unfold handleFileSelect
    split
    next h =>
      rcases h with ⟨h1, h2⟩
      constructor
      · intro h; exact SelectOutcome.noConfusion h
      · intro h
        rcases h.1 with hm | he
        · exact absurd (hmime.mpr hm) h1
        · exact absurd (hext.mpr he) h2
    next h =>
      rw [not_and_or, not_not, not_not] at h
      split
      next hs =>
        constructor
        · intro hh; exact SelectOutcome.noConfusion hh
        · intro hh; omega
      next hs =>
        rw [hmax] at hs
        constructor
        · intro _
          refine ⟨?_, by omega⟩
          rcases h with h | h
          · exact Or.inl (hmime.mp h)
          · exact Or.inr (hext.mp h)
        · intro _; rfl
  · intro hfail
    unfold handleFileSelect
    split
    next => exact ⟨"Please select a PDF or TXT file", rfl⟩
    next h =>
      rw [not_and_or, not_not, not_not] at h
      split
      next => exact ⟨"File size must be less than 10MB", rfl⟩
      next hs =>
        exfalso
        apply hfail
        refine ⟨?_, by omega⟩
        rcases h with h | h
        · exact Or.inl (hmime.mp h)
        · exact Or.inr (hext.mp h)

/-- Witness for C10 at concrete files: a small `notes.txt` is uploaded, a zip
file produces an error toast. -/
theorem C10_upload_validation_witness :
    handleFileSelect ⟨("notes.txt").data, "text/plain", 3⟩ = SelectOutcome.upload ∧
    ∃ m, handleFileSelect ⟨("archive.zip").data, "application/zip", 3⟩ =
      SelectOutcome.errorToast m :=
  ⟨(C10_upload_validation ⟨("notes.txt").data, "text/plain", 3⟩).1.mpr (by decide),
    (C10_upload_validation ⟨("archive.zip").data, "application/zip", 3⟩).2 (by decide)⟩

/-- C9 counterexample: in the legacy ChatBox, a state with non-empty input and
a request already in flight (`loading = true`) still issues an HTTP request,
so "loading implies no request" fails on that component. -/
theorem C9_counterexample :
    ¬ ((⟨("hi").data, [], true⟩ : LegacyChatState).loading = true →
        (handleSubmitLegacy ⟨("hi").data, [], true⟩).2 = 0) := by decide

/-- C9 amended: in the main ChatBox, submitting with empty trimmed input or a
request in flight is a no-op (no request, state unchanged), and otherwise
exactly one user message is appended before the single request is issued; in
the legacy ChatBox the only guard is empty trimmed input - `loading` is not
consulted - and no message is appended before the request. -/
theorem C9_amended (st : ChatState) (lst : LegacyChatState) :
    ((trimChars st.input = [] ∨ st.loading = true) → handleSubmitMain st = (st, 0)) ∧
    (¬ (trimChars st.input = [] ∨ st.loading = true) →
      (handleSubmitMain st).2 = 1 ∧
      (handleSubmitMain st).1.messages =
        st.messages ++ [{ role := ChatRole.user, content := trimChars st.input }]) ∧
    (trimChars lst.input = [] → handleSubmitLegacy lst = (lst, 0)) ∧
    (trimChars lst.input ≠ [] →
      (handleSubmitLegacy lst).2 = 1 ∧
      (handleSubmitLegacy lst).1.messages = lst.messages) := by
  refine ⟨?_, ?_, ?_, ?_⟩
  · intro h; simp [handleSubmitMain, h]
  · intro h; simp [handleSubmitMain, h]
  · intro h; simp [handleSubmitLegacy, h]
  · intro h; simp [handleSubmitLegacy, h]

/-- Witness for C9 at concrete states: a loading main-ChatBox state is a no-op,
an idle one appends the user message; an empty legacy input is a no-op. -/
theorem C9_amended_witness :
    handleSubmitMain ⟨("hi").data, [], true⟩ = (⟨("hi").data, [], true⟩, 0) ∧
    (handleSubmitMain ⟨("hi").data, [], false⟩).1.messages =
      [] ++ [{ role := ChatRole.user, content := trimChars ("hi").data }] ∧
    handleSubmitLegacy ⟨[], [], false⟩ = (⟨[], [], false⟩, 0) :=
  ⟨(C9_amended ⟨("hi").data, [], true⟩ ⟨[], [], false⟩).1 (Or.inr rfl),
    ((C9_amended ⟨("hi").data, [], false⟩ ⟨[], [], false⟩).2.1 (by decide)).2,
    (C9_amended ⟨("hi").data, [], true⟩ ⟨[], [], false⟩).2.2.1 (by decide)⟩

/-- C2 counterexample: the successful upload response consumed by the frontend
does not carry the claimed field set - it has `filename` and `chunks_stored`
and has neither `chunks_indexed` nor `chunks_failed`. -/
theorem C2_counterexample :
    uploadResponseFields ≠ claimedIngestFields ∧
    "chunks_stored" ∈ uploadResponseFields ∧
    "filename" ∈ uploadResponseFields ∧
    "chunks_indexed" ∉ uploadResponseFields ∧
    "chunks_failed" ∉ uploadResponseFields := by decide

/-- C2 amended: the returned record of a successful upload, as consumed by the
frontend, has the fields document_id, filename and chunks_stored, and the
uploader records chunks_stored as the number of chunks stored for the
document. -/
theorem C2_amended (r : UploadResponse) :
    uploadResponseFields = ["document_id", "filename", "chunks_stored"] ∧
    uploadedDocOf r = { id := r.document_id, filename := r.filename, chunks := r.chunks_stored } ∧
    (uploadedDocOf r).chunks = r.chunks_stored :=
  ⟨rfl, rfl, rfl⟩

/-- C3 counterexample: the legacy ChatBox receives a similarity value
`distance` and renders `(distance * 100).toFixed(1)`, so for a delivered value
of 1/2 the rendered number is 50, not the delivered similarity value. -/
theorem C3_counterexample :
    renderedMatchLegacy (1 / 2) = 50 ∧ (50 : ℚ) ≠ 1 / 2 := by
  constructor
  · have h : (10 : ℚ) * (1 / 2 * 100) = ((500 : ℤ) : ℚ) := by norm_num
    rw [renderedMatchLegacy, toFixed1, h, round_intCast]
    norm_num
  · norm_num

/-- C3 amended: the main ChatBox renders the delivered score rounded to one
decimal digit - equal to the score whenever it has at most one decimal digit -
while the legacy ChatBox delivers a 0-1 distance and renders 100 times the
distance rounded to one decimal digit. -/
theorem C3_amended (n : ℤ) (d : ℚ) :
    renderedMatchMain ((n : ℚ) / 10) = (n : ℚ) / 10 ∧
    renderedMatchLegacy d = toFixed1 (100 * d) := by
  constructor
  · have h : (10 : ℚ) * ((n : ℚ) / 10) = ((n : ℤ) : ℚ) := by
      field_simp
    rw [renderedMatchMain, toFixed1, h, round_intCast]
  · rw [renderedMatchLegacy, mul_comm]

/-- Concrete index entry used by witnesses. -/
def wEntry : IndexEntry :=
  { doc_id := 1, filename := ("a.txt").data, chunk_index := 0, topic := none,
    page := none, line := none, doc_url := none, text := ("alpha").data, vector := [1] }

/-- Concrete one-entry index used by witnesses. -/
def wIndex : List IndexEntry := [wEntry]

/-- Concrete embedder used by witnesses. -/
def wEmbed : List Char → List ℚ := fun _ => [1]

/-- Concrete language model stub used by witnesses. -/
def wLlm : List Char → Option String := fun _ => some "ok"

/-- C1: every source attached to an ask answer is a `Source` record - fields
filename, chunk_id, score, preview and optional page, line, topic, doc_url -
and its score lies between 0 and 100. -/
theorem C1_source_shape (embed : List Char → List ℚ) (llm : List Char → Option String)
    (index : List IndexEntry) (floor : ℚ) (k : Nat) (q : List Char) :
    ∀ s ∈ askSources (askModel embed llm index floor k q), 0 ≤ s.score ∧ s.score ≤ 100 := by
  intro s hs
  simp only [askModel] at hs
  split at hs
  · simp [askSources] at hs
  · split at hs
    · simp [askSources] at hs
    · simp only [askSources, List.mem_map] at hs
      obtain ⟨r, -, rfl⟩ := hs
      refine ⟨le_max_left 0 _, ?_⟩
      simp only [sourceOfResult, clampScore]
      exact max_le (by norm_num) (min_le_left 100 _)

/-- Witness for C1: the concrete ask run answers with one source whose score
is within the 0-100 range. -/
theorem C1_source_shape_witness :
    0 ≤ (sourceOfResult ⟨wEntry, 1⟩).score ∧ (sourceOfResult ⟨wEntry, 1⟩).score ≤ 100 :=
  C1_source_shape wEmbed wLlm wIndex 0 1 (("hello").data) (sourceOfResult ⟨wEntry, 1⟩)
    (by
      have hf : findMarker (("hello").data) = none := by decide
      simp [askModel, retrieve, hf, semanticSearch, wIndex, wEmbed, wEntry, dot,
        List.insertionSort, List.orderedInsert, wLlm, askSources])

/-- Joining the slices of the first `n` pages of size `L` yields the first
`n * L` elements. -/
theorem pages_flatMap_eq_take {α : Type} (l : List α) (L : Nat) :
    ∀ n : Nat, (List.range n).flatMap (fun j => (l.drop (j * L)).take L) = l.take (n * L)
  | 0 => by simp
  | n + 1 => by
    rw [List.range_succ, List.flatMap_append, pages_flatMap_eq_take l L n]
    simp only [List.flatMap_cons, List.flatMap_nil, List.append_nil]
    rw [Nat.succ_mul, List.take_add]

/-- C4: iterating `list_topics` with limit 50 over successive pages yields
exactly the unpaginated listing (hence no entry repeated across pages), and
`has_more` holds on a page iff `offset + limit < total`, so it is false
exactly on the final page. -/
theorem C4_pagination (entries : List TopicItem) :
    fetchAllPages entries 50 = entries ∧
    (∀ p : Nat, (listTopics entries p 50).has_more = true ↔
      (p - 1) * 50 + 50 < entries.length) ∧
    (∀ j : Nat, 1 ≤ j → j ≤ numPages entries.length 50 →
      ((listTopics entries j 50).has_more = false ↔ j = numPages entries.length 50)) ∧
    (entries.Nodup → (fetchAllPages entries 50).Nodup) := by
  have hfacts : entries.length ≤ numPages entries.length 50 * 50 ∧
      (entries.length = 0 → numPages entries.length 50 = 1) ∧
      (entries.length ≠ 0 → (numPages entries.length 50 - 1) * 50 < entries.length) := by
    by_cases h0 : entries.length = 0
    · simp [numPages, h0]
    · simp only [numPages, h0, if_false]
      refine ⟨by omega, fun h => h.elim, fun _ => by omega⟩
  have hjoin : fetchAllPages entries 50 = entries.take (numPages entries.length 50 * 50) := by
    unfold fetchAllPages
    have h := pages_flatMap_eq_take entries 50 (numPages entries.length 50)
    simpa [listTopics] using h
  have htake : entries.take (numPages entries.length 50 * 50) = entries :=
    List.take_of_length_le hfacts.1
  refine ⟨hjoin.trans htake, ?_, ?_, ?_⟩
  · intro p
    simp [listTopics]
  · intro j h1 h2
    simp only [listTopics, decide_eq_false_iff_not, not_lt]
    rcases hfacts with ⟨ha, hb, hc⟩
    by_cases h0 : entries.length = 0
    · have := hb h0
      omega
    · have := hc h0
      omega
  · intro h
    rw [hjoin.trans htake]
    exact h

/-- Concrete catalog item used by witnesses. -/
def wItem : TopicItem :=
  { filename := ("a.txt").data, topic := none, page := none, line := none,
    preview := ("p").data }

/-- Witness for C4 on a one-item catalog: the single page reproduces the
listing, `has_more` is false on it, and it is the final page. -/
theorem C4_pagination_witness :
    fetchAllPages [wItem] 50 = [wItem] ∧
    ((listTopics [wItem] 1 50).has_more = false ↔ 1 = numPages ([wItem] : List TopicItem).length 50) ∧
    (fetchAllPages [wItem] 50).Nodup :=
  ⟨(C4_pagination [wItem]).1,
    (C4_pagination [wItem]).2.2.1 1 (by decide) (by decide),
    (C4_pagination [wItem]).2.2.2 (by simp)⟩

/-- C5: a question matching the topic-marker pattern takes the EXACT_LOOKUP
branch - no embedding call (the outcome is independent of the embedder), the
results are exactly the index entries whose topic label matches
case-insensitively, ranked by document then chunk index, each assigned the
maximal similarity score. -/
theorem C5_exact_lookup (embed1 embed2 : List Char → List ℚ) (index : List IndexEntry)
    (floor : ℚ) (k : Nat) (q : List Char) (mm : Nat × Nat)
    (h : findMarker q = some mm) :
    retrieve embed1 index floor k q = retrieve embed2 index floor k q ∧
    (retrieve embed1 index floor k q).1 = RetrieverBranch.exactLookupState ∧
    (retrieve embed1 index floor k q).2 = exactLookup index mm ∧
    (∀ r ∈ exactLookup index mm, r.score = maxScore) ∧
    (∀ e : IndexEntry,
      (∃ r ∈ exactLookup index mm, r.entry = e) ↔ e ∈ index ∧ topicMatches mm e = true) ∧
    List.Pairwise (fun r1 r2 : RetrievalResult => docChunkLE r1.entry r2.entry)
      (exactLookup index mm) := by
  refine ⟨by simp [retrieve, h], by simp [retrieve, h], by simp [retrieve, h], ?_, ?_, ?_⟩
  · intro r hr
    simp only [exactLookup, List.mem_map] at hr
    obtain ⟨e, -, rfl⟩ := hr
    rfl
  · intro e
    constructor
    · rintro ⟨r, hr, rfl⟩
      simp only [exactLookup, List.mem_map] at hr
      obtain ⟨e', he', h'⟩ := hr
      rw [List.mem_insertionSort, List.mem_filter] at he'
      cases h'
      exact ⟨he'.1, he'.2⟩
    · intro he
      refine ⟨⟨e, maxScore⟩, ?_, rfl⟩
      simp only [exactLookup, List.mem_map]
      exact ⟨e, by rw [List.mem_insertionSort, List.mem_filter]; exact ⟨he.1, he.2⟩, rfl⟩
  · have hs := List.sorted_insertionSort docChunkLE (index.filter (topicMatches mm))
    unfold exactLookup
    exact List.Pairwise.map _ (fun a b hab => hab) hs

/-- Concrete topic-labelled index entries used by witnesses. -/
def wTopicEntry : IndexEntry :=
  { doc_id := 2, filename := ("b.txt").data, chunk_index := 3,
    topic := some (("Topic 1-2").data), page := some 1, line := some 4,
    doc_url := none, text := ("Topic 1-2 content").data, vector := [0] }

/-- Concrete two-entry index used by the exact-lookup witness. -/
def wIndexT : List IndexEntry := [wEntry, wTopicEntry]

/-- Witness for C5: the question "Topic 1-2" bypasses the embedder and returns
the matching entry at maximal score. -/
theorem C5_exact_lookup_witness :
    retrieve wEmbed wIndexT 0 1 (("Topic 1-2").data) =
      retrieve (fun _ => []) wIndexT 0 1 (("Topic 1-2").data) ∧
    (retrieve wEmbed wIndexT 0 1 (("Topic 1-2").data)).1 = RetrieverBranch.exactLookupState ∧
    (RetrievalResult.mk wTopicEntry maxScore).score = maxScore :=
  ⟨(C5_exact_lookup wEmbed (fun _ => []) wIndexT 0 1 (("Topic 1-2").data) (1, 2)
      (by decide)).1,
    (C5_exact_lookup wEmbed (fun _ => []) wIndexT 0 1 (("Topic 1-2").data) (1, 2)
      (by decide)).2.1,
    (C5_exact_lookup wEmbed (fun _ => []) wIndexT 0 1 (("Topic 1-2").data) (1, 2)
      (by decide)).2.2.2.1 (RetrievalResult.mk wTopicEntry maxScore)
      (by
        simp only [exactLookup, wIndexT, List.mem_map]
        refine ⟨wTopicEntry, ?_, rfl⟩
        rw [List.mem_insertionSort, List.mem_filter]
        exact ⟨by simp, by decide⟩)⟩

/-- C6: in the semantic branch, when every candidate's similarity is below the
floor, the Retriever returns an empty result set and ask returns the explicit
no-relevant-content answer with an empty sources list - a valid answer state
distinct from the generation-failed state. -/
theorem C6_no_relevant (embed : List Char → List ℚ) (llm : List Char → Option String)
    (index : List IndexEntry) (floor : ℚ) (k : Nat) (q : List Char)
    (hq : findMarker q = none)
    (hall : ∀ e ∈ index, dot (embed q) e.vector < floor) :
    (retrieve embed index floor k q).2 = [] ∧
    askModel embed llm index floor k q = AskOutcome.noRelevantContent ∧
    askSources (askModel embed llm index floor k q) = [] ∧
    AskOutcome.noRelevantContent ≠ AskOutcome.generationFailed := by
  have hsem : semanticSearch (embed q) index floor k = [] := by
    unfold semanticSearch
    rw [List.map_eq_nil_iff, List.filter_eq_nil_iff]
    intro p hp
    have hp' : p ∈ List.insertionSort simOrder
        (index.map (fun e => (e, dot (embed q) e.vector))) := List.mem_of_mem_take hp
    rw [List.mem_insertionSort, List.mem_map] at hp'
    obtain ⟨e, he, rfl⟩ := hp'
    simpa using not_le.mpr (hall e he)
  have hr : (retrieve embed index floor k q).2 = [] := by
    simp [retrieve, hq, hsem]
  refine ⟨hr, ?_, ?_, by simp⟩
  · simp [askModel, hr]
  · simp [askModel, hr, askSources]

/-- Witness for C6: a concrete question with no topic marker whose only
candidate scores below the floor yields the no-relevant-content outcome. -/
theorem C6_no_relevant_witness :
    askModel (fun _ => [0]) wLlm wIndex (1 / 2) 1 (("hello").data) =
      AskOutcome.noRelevantContent ∧
    askSources (askModel (fun _ => [0]) wLlm wIndex (1 / 2) 1 (("hello").data)) = [] :=
  ⟨(C6_no_relevant (fun _ => [0]) wLlm wIndex (1 / 2) 1 (("hello").data) (by decide)
      (by
        intro e he
        simp only [wIndex, List.mem_singleton] at he
        subst he
        simp [wEntry, dot]
        )).2.1,
    (C6_no_relevant (fun _ => [0]) wLlm wIndex (1 / 2) 1 (("hello").data) (by decide)
      (by
        intro e he
        simp only [wIndex, List.mem_singleton] at he
        subst he
        simp [wEntry, dot]
        )).2.2.1⟩

/-- Every entry surviving a document deletion belongs to another document. -/
theorem mem_deleteDocumentIdx {st : List IndexEntry} {d : Nat} {e : IndexEntry}
    (h : e ∈ deleteDocumentIdx st d) : e.doc_id ≠ d := by
  rw [deleteDocumentIdx, List.mem_filter] at h
  simpa using h.2

/-- C8: after `delete_document`, no semantic query, exact lookup or catalog
listing over the index returns an entry of the deleted document, and the
frontend DocumentList filter likewise retains no row with the deleted id. -/
theorem C8_delete_no_stale (st : List IndexEntry) (d : Nat) (qv : List ℚ) (floor : ℚ)
    (k : Nat) (mm : Nat × Nat) (page limit : Nat) (docs : List DocRecord) (s : String) :
    (∀ r ∈ semanticSearch qv (deleteDocumentIdx st d) floor k, r.entry.doc_id ≠ d) ∧
    (∀ r ∈ exactLookup (deleteDocumentIdx st d) mm, r.entry.doc_id ≠ d) ∧
    (∀ e ∈ listEntries (deleteDocumentIdx st d) page limit, e.doc_id ≠ d) ∧
    (∀ rec ∈ deleteDocumentLocal docs s, rec.id ≠ s) := by
  refine ⟨?_, ?_, ?_, ?_⟩
  · intro r hr
    simp only [semanticSearch, List.mem_map] at hr
    obtain ⟨p, hp, rfl⟩ := hr
    have hp1 := List.mem_of_mem_take (List.mem_filter.mp hp).1
    rw [List.mem_insertionSort, List.mem_map] at hp1
    obtain ⟨e, he, rfl⟩ := hp1
    exact mem_deleteDocumentIdx he
  · intro r hr
    simp only [exactLookup, List.mem_map] at hr
    obtain ⟨e, he, rfl⟩ := hr
    rw [List.mem_insertionSort, List.mem_filter] at he
    exact mem_deleteDocumentIdx he.1
  · intro e he
    have h1 : e ∈ deleteDocumentIdx st d :=
      List.mem_of_mem_drop (List.mem_of_mem_take he)
    exact mem_deleteDocumentIdx h1
  · intro rec hrec
    rw [deleteDocumentLocal, List.mem_filter] at hrec
    simpa using hrec.2

/-- Witness for C8: deleting document 2 from a two-document index leaves the
document 1 entry in the catalog listing, and that entry is not document 2;
likewise for the frontend row filter. -/
theorem C8_delete_no_stale_witness :
    wEntry.doc_id ≠ 2 ∧ (DocRecord.mk "d1" "a.txt").id ≠ "d2" :=
  ⟨(C8_delete_no_stale wIndexT 2 [] 0 1 (1, 2) 1 50 [⟨"d1", "a.txt"⟩] "d2").2.2.1 wEntry
      (by
        simp only [listEntries, deleteDocumentIdx, wIndexT]
        rw [List.filter_cons, List.filter_cons]
        simp [wEntry, wTopicEntry]),
    (C8_delete_no_stale wIndexT 2 [] 0 1 (1, 2) 1 50 [⟨"d1", "a.txt"⟩] "d2").2.2.2
      (DocRecord.mk "d1" "a.txt") (by simp [deleteDocumentLocal])⟩

/-- Joining consecutive marker spans reproduces the text from the first
marker onward. -/
theorem markerSpans_flatten (text : List Char) :
    ∀ (ps : List Nat) (p : Nat), List.Chain' (· ≤ ·) (p :: ps) →
      (markerSpans text (p :: ps)).flatten = text.drop p
  | [], p, _ => by simp [markerSpans]
  | q :: rest, p, h => by
    rw [List.chain'_cons] at h
    have ih := markerSpans_flatten text rest q h.2
    simp only [markerSpans, List.flatten_cons, ih]
    have hd : (text.drop p).drop (q - p) = text.drop q := by
      rw [List.drop_drop]
      congr 1
      omega
    rw [← hd, List.take_append_drop]

/-- Marker positions are produced in increasing order. -/
theorem markerPositions_chain (text : List Char) :
    List.Chain' (· ≤ ·) (markerPositions text) :=
  (((List.pairwise_le_range text.length).filter _)).chain'

/-- C7 counterexample: for the document "hi\nTopic 1-2 x" the chunker keeps
only the span from the topic marker onward, so the concatenation of chunk
texts differs from the document text even after discarding all whitespace -
the non-whitespace prefix "hi" is lost. -/
theorem C7_counterexample :
    ((chunkText ⟨500, 75⟩ (("hi\nTopic 1-2 x").data)).map Chunk.text).flatten.filter
        (fun c => ! c.isWhitespace) ≠
      (("hi\nTopic 1-2 x").data).filter (fun c => ! c.isWhitespace) := by decide

/-- C7 amended: when topic markers are found, concatenating the chunks in
index order reproduces the document text from the first marker onward (the
spec's marker chunking keeps no content before the first marker); when no
markers are found, every non-whitespace position of the text is covered by
some fallback chunk, so fallback splitting loses no content. -/
theorem C7_amended (cfg : ChunkCfg) (text : List Char) (hov : cfg.overlap < cfg.size) :
    (∀ p ps, markerPositions text = p :: ps →
      ((chunkText cfg text).map Chunk.text).flatten = text.drop p) ∧
    (markerPositions text = [] → ∀ i, i < text.length →
      (text.getD i ' ').isWhitespace = false →
      ∃ c ∈ chunkText cfg text, ∃ j,
        c.text = (text.drop (j * (cfg.size - cfg.overlap))).take cfg.size ∧
        j * (cfg.size - cfg.overlap) ≤ i ∧
        i < j * (cfg.size - cfg.overlap) + cfg.size) := by
  constructor
  · intro p ps h
    have hch : List.Chain' (· ≤ ·) (p :: ps) := h ▸ markerPositions_chain text
    simp only [chunkText, h, List.map_map]
    have hid : (Chunk.text ∘ fun s => Chunk.mk s (parseMarker s)) = id := rfl
    rw [hid, List.map_id]
    exact markerSpans_flatten text ps p hch
  · intro hmk i hi hws
    have hstep : 0 < cfg.size - cfg.overlap := by omega
    set step := cfg.size - cfg.overlap with hstepdef
    set j := i / step with hjdef
    have hji : j * step ≤ i := Nat.div_mul_le_self i step
    have hmod : i % step < step := Nat.mod_lt i hstep
    have hdm : step * (i / step) + i % step = i := Nat.div_add_mod i step
    have hcomm : j * step = step * (i / step) := by rw [hjdef, Nat.mul_comm]
    have hlt : i < j * step + cfg.size := by
      have h1 : step ≤ cfg.size := by omega
      omega
    have hj : j < (text.length + step - 1) / step := by
      have h1 : j ≤ (text.length - 1) / step := Nat.div_le_div_right (by omega)
      have h3 : text.length - 1 + step = text.length + step - 1 := by omega
      have h2 : (text.length - 1) / step + 1 = (text.length + step - 1) / step := by
        rw [← h3]
        exact (Nat.add_div_right _ hstep).symm
      omega
    have hw : ((text.drop (j * step)).take cfg.size)[i - j * step]? = text[i]? := by
      rw [List.getElem?_take_of_lt (by omega), List.getElem?_drop]
      congr 1
      omega
    have hx : text[i]? = some (text.getD i ' ') := by
      rw [List.getD_eq_getElem?_getD, List.getElem?_eq_getElem hi]
      rfl
    have hmem : text.getD i ' ' ∈ (text.drop (j * step)).take cfg.size :=
      List.getElem?_mem (hw.trans hx)
    have hall : ¬ ((text.drop (j * step)).take cfg.size).all Char.isWhitespace = true := by
      intro hc
      have := List.all_eq_true.mp hc _ hmem
      rw [hws] at this
      exact Bool.noConfusion this
    refine ⟨⟨(text.drop (j * step)).take cfg.size, none⟩, ?_, j, rfl, hji, hlt⟩
    simp only [chunkText, hmk]
    rw [fallbackChunks, List.mem_filterMap]
    refine ⟨(text.drop (j * step)).take cfg.size, ?_, ?_⟩
    · rw [fallbackWindows, List.mem_map]
      exact ⟨j, List.mem_range.mpr hj, rfl⟩
    · rw [if_neg hall]

/-- Witness for C7: on "hi\nTopic 1-2 x" the chunks reproduce the text from
offset 3 onward; on the marker-free text "ab" the first character is covered
by the first fallback window. -/
theorem C7_amended_witness :
    ((chunkText ⟨500, 75⟩ (("hi\nTopic 1-2 x").data)).map Chunk.text).flatten =
      (("hi\nTopic 1-2 x").data).drop 3 ∧
    ∃ c ∈ chunkText ⟨500, 75⟩ (("ab").data), ∃ j,
      c.text = ((("ab").data).drop (j * (500 - 75))).take 500 ∧
      j * (500 - 75) ≤ 0 ∧ 0 < j * (500 - 75) + 500 :=
  ⟨(C7_amended ⟨500, 75⟩ (("hi\nTopic 1-2 x").data) (by decide)).1 3 [] (by decide),
    (C7_amended ⟨500, 75⟩ (("ab").data) (by decide)).2 (by decide) 0 (by decide) (by decide)⟩
